import Mathlib

/-!
Oracle of the Abyss: the submission form and the analysis panel

A shallow embedding of the two React components of the front end,
`UserInputBox.jsx` (the submit handler `handleSubmit`) and
`AnalysisOutputBox.jsx` (the renderer `formatAnalysis`), together with the
one piece of state `App.jsx` keeps between them (`analysisResult`).

Conventions of the embedding.

* A JavaScript string is a Lean `String`.  All characters the code inspects
  (the white space removed by `trim`) lie in the Basic Multilingual Plane, so
  working on code points instead of UTF-16 code units makes no difference.
* A number of the response is an `Int`, the integer written in the JSON text;
  the transport contract only carries integers.  JavaScript holds it as the
  nearest double (`toDouble`) and prints the shortest digits that read back as
  that double (`numberToString`).  For a safe integer, one of absolute value
  below `2 ^ 53`, that is plain decimal notation (`numberToString_safe`);
  beyond them it need not be: `2 ^ 63` prints as `9223372036854776000` and
  `10 ^ 21` as `1e+21` (`numberToString_unsafe`).
  Array lengths, hence stanza numbers, stay below `2 ^ 32`.
* A key that may be missing from an object is an `Option`; `none` is the
  JavaScript value `undefined`.
* A run of JavaScript code either completes or throws; side effects are
  recorded, in order, in a trace.
-/

namespace OracleOfTheAbyss

/-! ## Values -/

/-- Exceptions the renderer can raise: reading an index or calling a method on
`undefined` throws a `TypeError`. -/
inductive JsError where
  | typeError
  deriving DecidableEq, Repr

/-- The object stored in `analysisResult`: the two response shapes of the
transport contract laid over each other, every key optional, so that an object
carrying `error` together with success fields is representable. -/
structure AnalysisResult where
  error : Option String
  title : Option String
  stanza_texts : Option (List String)
  line_counts : Option (List Int)
  syllables_per_line : Option (List (List Int))
  deriving DecidableEq, Repr

/-- JavaScript truthiness of a value that is a string or `undefined`: only
`undefined` and the empty string are falsy. -/
def truthy : Option String → Bool
  | none => false
  | some s => s != ""

/-- The expression `a || b` on strings: `b` when `a` is falsy. -/
def orElse (a : Option String) (b : String) : String :=
  match a with
  | none => b
  | some s => if s = "" then b else s

/-- Number of binary digits of `a`, counted by halving at most `fuel` times. -/
def bitLengthAux : Nat → Nat → Nat
  | 0, _ => 0
  | fuel + 1, a => if a = 0 then 0 else bitLengthAux fuel (a / 2) + 1

/-- Number of binary digits of `a`: `0` for `0`, and `k` when
`2 ^ (k - 1) ≤ a < 2 ^ k`. -/
def bitLength (a : Nat) : Nat :=
  bitLengthAux a a

/-- The double nearest to the natural number `a`, as `JSON.parse` reads an
integer: `a` is cut to a significand `q` of 53 binary digits, rounded to
nearest with ties going to the even significand; `none` is `Infinity`, for a
result of more than 1024 binary digits. -/
def toDouble (a : Nat) : Option Nat :=
  if a < 2 ^ 53 then some a
  else
    let e := bitLength a - 53
    let q := a / 2 ^ e
    let r := a % 2 ^ e
    let m := if 2 ^ e < 2 * r ∨ (2 * r = 2 ^ e ∧ q % 2 = 1) then q + 1 else q
    if bitLength (m * 2 ^ e) ≤ 1024 then some (m * 2 ^ e) else none

/-- The integer with the fewest significant digits that reads back as the
double `x`, the one `Number::toString` prints: multiples of `10 ^ (z + 1)` are
tried first, then of `10 ^ z`, down to `x` itself; of two candidates the one
nearer to `x` is taken, the even one on a tie. -/
def shortest (x : Nat) : Nat → Nat
  | 0 => x
  | z + 1 =>
    let p := 10 ^ (z + 1)
    let lo := x / p * p
    let hi := lo + p
    if toDouble lo = some x ∧ toDouble hi = some x then
      if x - lo < hi - x then lo
      else if hi - x < x - lo then hi
      else if x / p % 2 = 0 then lo else hi
    else if toDouble lo = some x then lo
    else if toDouble hi = some x then hi
    else shortest x z

/-- The notation of `Number::toString` for the digits chosen: plain decimal
below `10 ^ 21`, exponential from there on. -/
def renderDouble (v : Nat) : String :=
  if v < 10 ^ 21 then toString v
  else
    match (toString v).data.rdropWhile (fun c => c == '0') with
    | [] => "0"
    | [d] => String.mk [d] ++ "e+" ++ toString ((toString v).length - 1)
    | d :: rest => String.mk (d :: '.' :: rest) ++ "e+" ++ toString ((toString v).length - 1)

/-- The string JavaScript prints for the number `n`, as template literals and
`Array.prototype.join` do. -/
def numberToString (n : Int) : String :=
  match toDouble n.natAbs with
  | none => if n < 0 then "-Infinity" else "Infinity"
  | some x =>
    if n < 0 then "-" ++ renderDouble (shortest x ((toString x).length - 1))
    else renderDouble (shortest x ((toString x).length - 1))

/-- Template-literal interpolation of a string or `undefined`. -/
def templateString : Option String → String
  | none => "undefined"
  | some s => s

/-- Template-literal interpolation of a number or `undefined`. -/
def templateNumber : Option Int → String
  | none => "undefined"
  | some n => numberToString n

/-- The call `xs.join(sep)` on an array of numbers. -/
def arrayJoin (xs : List Int) (sep : String) : String :=
  sep.intercalate (xs.map numberToString)

/-- The call `s.repeat(n)`. -/
def stringRepeat (s : String) (n : Nat) : String :=
  String.join (List.replicate n s)

/-- White space and line terminators of ECMAScript, the characters
`String.prototype.trim` removes. -/
def isJsWhiteSpace (c : Char) : Bool :=
  decide (c.toNat ∈ [0x09, 0x0A, 0x0B, 0x0C, 0x0D, 0x20, 0xA0, 0x1680, 0x2028,
    0x2029, 0x202F, 0x205F, 0x3000, 0xFEFF]) || (0x2000 ≤ c.toNat && c.toNat ≤ 0x200A)

/-- The call `s.trim()`: white space is dropped from both ends. -/
def jsTrim (s : String) : String :=
  ⟨(s.data.dropWhile isJsWhiteSpace).rdropWhile isJsWhiteSpace⟩

/-- The call `s.startsWith(p)`. -/
def jsStartsWith (s p : String) : Bool :=
  p.data.isPrefixOf s.data

/-! ## `AnalysisOutputBox.jsx` -/

/-- One pass through the body of the `for` loop of `formatAnalysis`, at index
`i` with accumulator `output`.  `line_counts[i]` and `syllables_per_line[i]`
throw when the array itself is `undefined`; `.join` throws when
`syllables_per_line[i]` is `undefined`. -/
def formatStanza (stanza_texts : List String) (line_counts : Option (List Int))
    (syllables_per_line : Option (List (List Int))) (output : String) (i : Nat) :
    Except JsError String := do
  let output := output ++ ("Stanza " ++ toString (i + 1) ++ ":\n")
  let output := output ++ (templateString stanza_texts[i]? ++ "\n\n")
  let lineCount ← match line_counts with
    | none => throw JsError.typeError
    | some lc => pure lc[i]?
  let output := output ++ ("Lines: " ++ templateNumber lineCount ++ "\n")
  let syllables ← match syllables_per_line with
    | none => throw JsError.typeError
    | some spl => match spl[i]? with
      | none => throw JsError.typeError
      | some row => pure row
  let output := output ++ ("Syllables per line: " ++ arrayJoin syllables ", " ++ "\n")
  let output := output ++ ("\n" ++ stringRepeat "─" 50 ++ "\n\n")
  pure output

/-- The renderer `formatAnalysis` of `AnalysisOutputBox`; the argument is the
component's `analysisResult` prop, `none` being `null`. -/
def formatAnalysis (analysisResult : Option AnalysisResult) : Except JsError String :=
  match analysisResult with
  | none => pure ""
  | some r =>
    if truthy r.error then
      pure ("Error: " ++ templateString r.error)
    else
      match r.stanza_texts with
      | none => pure ""
      | some stanza_texts =>
        (List.range stanza_texts.length).foldlM
          (formatStanza stanza_texts r.line_counts r.syllables_per_line) ""

/-! ## `UserInputBox.jsx` and `App.jsx` -/

/-- The `useState` cells of `UserInputBox`. -/
structure FormState where
  writing : String
  title : String
  isLoading : Bool
  deriving DecidableEq, Repr

/-- The JSON body of the request. -/
structure RequestBody where
  poem_text : String
  title : String
  deriving DecidableEq, Repr

/-- The object a resolved `axios.post` promise yields; only `data` is read. -/
structure Response where
  data : Option AnalysisResult
  deriving DecidableEq, Repr

/-- The object a rejected `axios.post` promise throws; only `message` is read. -/
structure AxiosError where
  message : String
  deriving DecidableEq, Repr

/-- Observable actions of `handleSubmit`, in the order they happen. -/
inductive Effect where
  | preventDefault
  | setIsLoading (value : Bool)
  | axiosPost (url : String) (body : RequestBody)
  | onAnalysisReceived (value : Option AnalysisResult)
  | consoleLog (label : String) (value : Option AnalysisResult)
  | consoleError (label : String) (error : AxiosError)
  deriving DecidableEq, Repr

/-- A piece of JavaScript code: started after the trace `t`, it extends the
trace and either completes with a value or throws. -/
def Js (α : Type) : Type :=
  List Effect → Except AxiosError α × List Effect

instance : Monad Js where
  pure a := fun t => (Except.ok a, t)
  bind m f := fun t =>
    match m t with
    | (Except.ok a, t1) => f a t1
    | (Except.error e, t1) => (Except.error e, t1)

/-- Perform one action that cannot throw. -/
def emit (e : Effect) : Js Unit :=
  fun t => (Except.ok (), t ++ [e])

/-- The statement `try body catch (error) handler finally cleanup`: `cleanup`
runs on every path, and an exception leaves the statement only when `handler`
or `cleanup` throws. -/
def tryCatchFinally (body : Js Unit) (handler : AxiosError → Js Unit) (cleanup : Js Unit) :
    Js Unit :=
  fun t =>
    match body t with
    | (Except.ok _, t1) => cleanup t1
    | (Except.error e, t1) =>
      match handler e t1 with
      | (Except.ok _, t2) => cleanup t2
      | (Except.error e2, t2) =>
        match cleanup t2 with
        | (Except.ok _, t3) => (Except.error e2, t3)
        | (Except.error e3, t3) => (Except.error e3, t3)

/-- The expression `await axios.post(url, body)`: the request is issued, and
the outcome decided by the network, `post`, is either the response or a thrown
error. -/
def awaitAxiosPost (post : String → RequestBody → Except AxiosError Response)
    (url : String) (body : RequestBody) : Js Response :=
  fun t => (post url body, t ++ [Effect.axiosPost url body])

/-- The submit handler `handleSubmit` of `UserInputBox`.  `VITE_API_URL` is
`import.meta.env.VITE_API_URL`, `post` the behaviour of the network, `s` the
component state at the time of the click.  The callback `onAnalysisReceived`
and the console are recorded as actions; they do not throw. -/
def handleSubmit (VITE_API_URL : Option String)
    (post : String → RequestBody → Except AxiosError Response) (s : FormState) : Js Unit := do
  emit Effect.preventDefault
  if jsTrim s.writing = "" then
    pure ()
  else
    emit (Effect.setIsLoading true)
    tryCatchFinally
      (do
        let API_URL := orElse VITE_API_URL "http://localhost:8000"
        let response ← awaitAxiosPost post (API_URL ++ "/analyze")
          ⟨s.writing, orElse (some s.title) "Untitled"⟩
        emit (Effect.onAnalysisReceived response.data)
        emit (Effect.consoleLog "Analysis received:" response.data))
      (fun error => do
        emit (Effect.consoleError "Error getting analysis:" error)
        emit (Effect.onAnalysisReceived (some ⟨some error.message, none, none, none, none⟩)))
      (emit (Effect.setIsLoading false))

/-- Run a handler from an empty trace. -/
def run (m : Js Unit) : Except AxiosError Unit × List Effect :=
  m []

/-- The requests issued in a trace. -/
def posts (t : List Effect) : List (String × RequestBody) :=
  t.filterMap fun e =>
    match e with
    | Effect.axiosPost url body => some (url, body)
    | _ => none

/-- The arguments `onAnalysisReceived` was called with in a trace. -/
def received (t : List Effect) : List (Option AnalysisResult) :=
  t.filterMap fun e =>
    match e with
    | Effect.onAnalysisReceived v => some v
    | _ => none

/-- The value of the `isLoading` cell after a trace: the last value set. -/
def isLoadingAfter (isLoading : Bool) (t : List Effect) : Bool :=
  t.foldl (fun b e =>
    match e with
    | Effect.setIsLoading v => v
    | _ => b) isLoading

/-- The value of the `analysisResult` cell of `App` after a trace:
`onAnalysisReceived` is `setAnalysisResult`, so the last value received. -/
def analysisResultAfter (analysisResult : Option AnalysisResult) (t : List Effect) :
    Option AnalysisResult :=
  (received t).foldl (fun _ v => v) analysisResult

/-- The actions a handler performs, started from an empty trace. -/
def traceOf (m : Js Unit) : List Effect :=
  (run m).2

/-- How a handler ends, started from an empty trace: `ok` when it returns,
`error` when an exception escapes it. -/
def completion (m : Js Unit) : Except AxiosError Unit :=
  (run m).1

/-- The URL the handler posts to: `VITE_API_URL || 'http://localhost:8000'`
followed by `/analyze`. -/
def analyzeUrl (VITE_API_URL : Option String) : String :=
  orElse VITE_API_URL "http://localhost:8000" ++ "/analyze"

/-! ## Sample networks and values for the worked examples -/

/-- A network on which every request fails with the message `Network Error`. -/
def networkDown : String → RequestBody → Except AxiosError Response :=
  fun _ _ => Except.error ⟨"Network Error"⟩

/-- A network whose server answers every request with the validation error. -/
def rejectingServer : String → RequestBody → Except AxiosError Response :=
  fun _ _ => Except.ok ⟨some ⟨some "poem text is required", none, none, none, none⟩⟩

/-- The response of the end-to-end scenario: one stanza of two lines. -/
def rosesResult : AnalysisResult :=
  ⟨none, some "Test", some ["Roses are red\nViolets are blue"], some [2], some [[3, 3]]⟩

/-- A network whose server answers every request with `rosesResult`. -/
def rosesServer : String → RequestBody → Except AxiosError Response :=
  fun _ _ => Except.ok ⟨some rosesResult⟩

/-- A two-stanza success result. -/
def twoStanzas : AnalysisResult :=
  ⟨none, some "Test", some ["Line one\nLine two", "Line three"], some [2, 1],
    some [[2, 2], [2]]⟩

/-- An object carrying a non-empty `error` next to success fields whose
indexing would throw (`line_counts` is missing). -/
def errorWithFields : AnalysisResult :=
  ⟨some "poem text is required", some "Test", some ["Roses are red"], none, some []⟩

/-! ## The rendering as the specification words it -/

/-- The block of stanza `i` as the specification spells it out: one string,
built from the entries at index `i` of the three arrays, the integers written
in decimal notation. -/
def stanzaBlock (stanza_texts : List String) (line_counts : List Int)
    (syllables_per_line : List (List Int)) (i : Nat) : String :=
  "Stanza " ++ toString (i + 1) ++ ":\n" ++ stanza_texts.getD i "" ++ "\n\nLines: "
    ++ toString (line_counts.getD i 0) ++ "\nSyllables per line: "
    ++ ", ".intercalate ((syllables_per_line.getD i []).map (fun n => toString n))
    ++ "\n\n" ++ String.mk (List.replicate 50 '─') ++ "\n\n"

/-- The block of stanza `i` as the specification spells it out, the integers
printed as JavaScript prints a number (which is decimal notation for a safe
integer only). -/
def stanzaBlockJs (stanza_texts : List String) (line_counts : List Int)
    (syllables_per_line : List (List Int)) (i : Nat) : String :=
  "Stanza " ++ toString (i + 1) ++ ":\n" ++ stanza_texts.getD i "" ++ "\n\nLines: "
    ++ numberToString (line_counts.getD i 0) ++ "\nSyllables per line: "
    ++ ", ".intercalate ((syllables_per_line.getD i []).map numberToString)
    ++ "\n\n" ++ String.mk (List.replicate 50 '─') ++ "\n\n"

/-- The rendering of a success result as the specification words it: the
blocks of the stanzas, concatenated by increasing index. -/
def renderStanzas (stanza_texts : List String) (line_counts : List Int)
    (syllables_per_line : List (List Int)) : String :=
  String.join ((List.range stanza_texts.length).map
    (stanzaBlock stanza_texts line_counts syllables_per_line))

/-! ## Numbers: safe integers print in decimal notation -/

theorem toDouble_of_lt (a : Nat) (h : a < 2 ^ 53) : toDouble a = some a := by
  unfold toDouble
  rw [if_pos h]

theorem bitLengthAux_lt (f a : Nat) (h : a ≤ f) : a < 2 ^ bitLengthAux f a := by
  induction f generalizing a with
  | zero =>
    have h0 : a = 0 := Nat.le_zero.mp h
    rw [h0]
    exact Nat.two_pow_pos _
  | succ f ih =>
    unfold bitLengthAux
    by_cases ha : a = 0
    · rw [if_pos ha, ha]
      exact Nat.two_pow_pos _
    · rw [if_neg ha, Nat.pow_succ]
      have h2 := ih (a / 2) (by omega)
      omega

theorem bitLengthAux_le (f a : Nat) (h : a ≤ f) (ha : a ≠ 0) :
    1 ≤ bitLengthAux f a ∧ 2 ^ (bitLengthAux f a - 1) ≤ a := by
  induction f generalizing a with
  | zero => exact absurd (Nat.le_zero.mp h) ha
  | succ f ih =>
    unfold bitLengthAux
    rw [if_neg ha]
    refine ⟨Nat.le_add_left _ _, ?_⟩
    rw [Nat.add_sub_cancel]
    by_cases h2 : a / 2 = 0
    · have hb : bitLengthAux f (a / 2) = 0 := by
        rw [h2]
        cases f with
        | zero => rfl
        | succ g => rfl
      rw [hb]
      show 1 ≤ a
      omega
    · obtain ⟨h1, hp⟩ := ih (a / 2) (by omega) h2
      have hs : bitLengthAux f (a / 2) = (bitLengthAux f (a / 2) - 1) + 1 := by omega
      rw [hs, Nat.pow_succ]
      omega

theorem toDouble_ge (a x : Nat) (h : ¬ a < 2 ^ 53) (hx : toDouble a = some x) :
    2 ^ 53 ≤ x := by
  have ha : a ≠ 0 := by
    intro h0
    exact h (by rw [h0]; exact Nat.two_pow_pos 53)
  have hlt : a < 2 ^ bitLength a := bitLengthAux_lt a a (Nat.le_refl a)
  obtain ⟨-, hle⟩ := bitLengthAux_le a a (Nat.le_refl a) ha
  have hL : 54 ≤ bitLength a := by
    by_contra hc
    have h53 : bitLength a ≤ 53 := by omega
    have hpw : 2 ^ bitLength a ≤ 2 ^ 53 := Nat.pow_le_pow_right (by decide) h53
    exact h (Nat.lt_of_lt_of_le hlt hpw)
  have hpow : 2 ^ 52 * 2 ^ (bitLength a - 53) ≤ a := by
    rw [← Nat.pow_add]
    have hsum : 52 + (bitLength a - 53) = bitLength a - 1 := by omega
    rw [hsum]
    exact hle
  have hq : 2 ^ 52 ≤ a / 2 ^ (bitLength a - 53) :=
    (Nat.le_div_iff_mul_le (Nat.two_pow_pos _)).2 hpow
  have he : 2 ^ 1 ≤ 2 ^ (bitLength a - 53) :=
    Nat.pow_le_pow_right (by decide) (by omega)
  have hm : 2 ^ 52 ≤ (if 2 ^ (bitLength a - 53) < 2 * (a % 2 ^ (bitLength a - 53)) ∨
      (2 * (a % 2 ^ (bitLength a - 53)) = 2 ^ (bitLength a - 53) ∧
        a / 2 ^ (bitLength a - 53) % 2 = 1)
      then a / 2 ^ (bitLength a - 53) + 1 else a / 2 ^ (bitLength a - 53)) := by
    split
    · exact Nat.le_succ_of_le hq
    · exact hq
  have hbig : 2 ^ 53 ≤ (if 2 ^ (bitLength a - 53) < 2 * (a % 2 ^ (bitLength a - 53)) ∨
      (2 * (a % 2 ^ (bitLength a - 53)) = 2 ^ (bitLength a - 53) ∧
        a / 2 ^ (bitLength a - 53) % 2 = 1)
      then a / 2 ^ (bitLength a - 53) + 1 else a / 2 ^ (bitLength a - 53))
      * 2 ^ (bitLength a - 53) :=
    calc 2 ^ 53 = 2 ^ 52 * 2 ^ 1 := rfl
      _ ≤ _ := Nat.mul_le_mul hm he
  unfold toDouble at hx
  rw [if_neg h] at hx
  by_cases hfin : bitLength ((if 2 ^ (bitLength a - 53) < 2 * (a % 2 ^ (bitLength a - 53)) ∨
      (2 * (a % 2 ^ (bitLength a - 53)) = 2 ^ (bitLength a - 53) ∧
        a / 2 ^ (bitLength a - 53) % 2 = 1)
      then a / 2 ^ (bitLength a - 53) + 1 else a / 2 ^ (bitLength a - 53))
      * 2 ^ (bitLength a - 53)) ≤ 1024
  · rw [if_pos hfin] at hx
    injection hx with hx
    rw [← hx]
    exact hbig
  · rw [if_neg hfin] at hx
    cases hx

theorem toDouble_eq_safe (a x : Nat) (hx : x < 2 ^ 53) (h : toDouble a = some x) : a = x := by
  by_cases ha : a < 2 ^ 53
  · rw [toDouble_of_lt a ha] at h
    injection h
  · exact absurd (toDouble_ge a x ha h) (Nat.not_le_of_lt hx)

theorem shortest_safe (x : Nat) (hx : x < 2 ^ 53) (z : Nat) : shortest x z = x := by
  induction z with
  | zero => rfl
  | succ z ih =>
    unfold shortest
    by_cases hboth : toDouble (x / 10 ^ (z + 1) * 10 ^ (z + 1)) = some x ∧
        toDouble (x / 10 ^ (z + 1) * 10 ^ (z + 1) + 10 ^ (z + 1)) = some x
    · have hlo := toDouble_eq_safe _ x hx hboth.1
      have hhi := toDouble_eq_safe _ x hx hboth.2
      rw [if_pos hboth]
      split
      · exact hlo
      · split
        · exact hhi
        · split
          · exact hlo
          · exact hhi
    · rw [if_neg hboth]
      by_cases hlo : toDouble (x / 10 ^ (z + 1) * 10 ^ (z + 1)) = some x
      · rw [if_pos hlo]
        exact toDouble_eq_safe _ x hx hlo
      · rw [if_neg hlo]
        by_cases hhi : toDouble (x / 10 ^ (z + 1) * 10 ^ (z + 1) + 10 ^ (z + 1)) = some x
        · rw [if_pos hhi]
          exact toDouble_eq_safe _ x hx hhi
        · rw [if_neg hhi]
          exact ih

theorem renderDouble_safe (x : Nat) (hx : x < 2 ^ 53) : renderDouble x = toString x := by
  unfold renderDouble
  rw [if_pos (Nat.lt_trans hx (by decide))]

theorem numberToString_safe (n : Int) (h : n.natAbs < 2 ^ 53) :
    numberToString n = toString n := by
  unfold numberToString
  rw [toDouble_of_lt _ h]
  show (if n < 0 then "-" ++ renderDouble (shortest n.natAbs ((toString n.natAbs).length - 1))
    else renderDouble (shortest n.natAbs ((toString n.natAbs).length - 1))) = toString n
  rw [shortest_safe _ h, renderDouble_safe _ h]
  cases n with
  | ofNat m =>
    rw [if_neg (show ¬ (Int.ofNat m < 0) from Int.not_lt.mpr (Int.ofNat_nonneg m))]
    rfl
  | negSucc m =>
    rw [if_pos (Int.negSucc_lt_zero m)]
    rfl

theorem numberToString_unsafe :
    numberToString 9007199254740993 = "9007199254740992" ∧
    numberToString 9223372036854775808 = "9223372036854776000" ∧
    numberToString 999999999999999900000 = "999999999999999900000" ∧
    numberToString 1000000000000000000000 = "1e+21" ∧
    numberToString (-1000000000000000000000) = "-1e+21" := by
  decide

/-! ## Evaluation lemmas -/

theorem jsTrim_eq_empty_of_all (w : String) (h : w.data.all isJsWhiteSpace = true) :
    jsTrim w = "" := by
  have h1 : w.data.dropWhile isJsWhiteSpace = [] := by
    rw [List.dropWhile_eq_nil_iff]
    intro c hc
    exact (List.all_eq_true.mp h) c hc
  unfold jsTrim
  rw [h1]
  rfl

theorem all_of_jsTrim_eq_empty (w : String) (h : jsTrim w = "") :
    w.data.all isJsWhiteSpace = true := by
  unfold jsTrim at h
  have h1 : (w.data.dropWhile isJsWhiteSpace).rdropWhile isJsWhiteSpace = [] :=
    congrArg String.data h
  rw [List.rdropWhile_eq_nil_iff] at h1
  rw [List.all_eq_true]
  intro c hc
  by_contra hcon
  have h2 : w.data.dropWhile isJsWhiteSpace ≠ [] := by
    rw [Ne, List.dropWhile_eq_nil_iff]
    intro hall
    exact hcon (hall c hc)
  obtain ⟨x, xs, hx⟩ := List.exists_cons_of_ne_nil h2
  have h3 : isJsWhiteSpace x = true := h1 x (by rw [hx]; exact List.mem_cons_self x xs)
  have h4 := List.head_dropWhile_not isJsWhiteSpace w.data h2
  simp only [hx, List.head_cons] at h4
  rw [h3] at h4
  exact absurd h4 (by decide)

theorem run_handleSubmit_blank (env : Option String)
    (post : String → RequestBody → Except AxiosError Response) (s : FormState)
    (h : jsTrim s.writing = "") :
    run (handleSubmit env post s) = (Except.ok (), [Effect.preventDefault]) := by
  unfold handleSubmit
  simp only [h, if_true]
  rfl

theorem run_handleSubmit_ok (env : Option String)
    (post : String → RequestBody → Except AxiosError Response) (s : FormState)
    (response : Response) (h : jsTrim s.writing ≠ "")
    (hp : post (orElse env "http://localhost:8000" ++ "/analyze")
      ⟨s.writing, orElse (some s.title) "Untitled"⟩ = Except.ok response) :
    run (handleSubmit env post s) = (Except.ok (),
      [Effect.preventDefault, Effect.setIsLoading true,
       Effect.axiosPost (orElse env "http://localhost:8000" ++ "/analyze")
         ⟨s.writing, orElse (some s.title) "Untitled"⟩,
       Effect.onAnalysisReceived response.data,
       Effect.consoleLog "Analysis received:" response.data,
       Effect.setIsLoading false]) := by
  unfold handleSubmit
  simp only [h, if_false]
  simp [run, bind, emit, tryCatchFinally, awaitAxiosPost, hp]

theorem run_handleSubmit_error (env : Option String)
    (post : String → RequestBody → Except AxiosError Response) (s : FormState)
    (error : AxiosError) (h : jsTrim s.writing ≠ "")
    (hp : post (orElse env "http://localhost:8000" ++ "/analyze")
      ⟨s.writing, orElse (some s.title) "Untitled"⟩ = Except.error error) :
    run (handleSubmit env post s) = (Except.ok (),
      [Effect.preventDefault, Effect.setIsLoading true,
       Effect.axiosPost (orElse env "http://localhost:8000" ++ "/analyze")
         ⟨s.writing, orElse (some s.title) "Untitled"⟩,
       Effect.consoleError "Error getting analysis:" error,
       Effect.onAnalysisReceived (some ⟨some error.message, none, none, none, none⟩),
       Effect.setIsLoading false]) := by
  unfold handleSubmit
  simp only [h, if_false]
  simp [run, bind, emit, tryCatchFinally, awaitAxiosPost, hp]

theorem formatStanza_isOk (st : List String) (lc : List Int) (spl : List (List Int))
    (acc : String) (i : Nat) (h3 : i < spl.length) :
    ∃ out, formatStanza st (some lc) (some spl) acc i = Except.ok out := by
  have e3 : spl[i]? = some (spl.getD i []) := by
    rw [List.getD_eq_getElem?_getD, List.getElem?_eq_getElem h3]; rfl
  unfold formatStanza
  simp only [e3]
  exact ⟨_, rfl⟩

theorem formatStanza_ok (st : List String) (lc : List Int) (spl : List (List Int))
    (hlc : ∀ n ∈ lc, n.natAbs < 2 ^ 53) (hspl : ∀ row ∈ spl, ∀ n ∈ row, n.natAbs < 2 ^ 53)
    (acc : String) (i : Nat) (h1 : i < st.length) (h2 : i < lc.length) (h3 : i < spl.length) :
    formatStanza st (some lc) (some spl) acc i = Except.ok (acc ++ stanzaBlock st lc spl i) := by
  have e1 : st[i]? = some (st.getD i "") := by
    rw [List.getD_eq_getElem?_getD, List.getElem?_eq_getElem h1]; rfl
  have e2 : lc[i]? = some (lc.getD i 0) := by
    rw [List.getD_eq_getElem?_getD, List.getElem?_eq_getElem h2]; rfl
  have e3 : spl[i]? = some (spl.getD i []) := by
    rw [List.getD_eq_getElem?_getD, List.getElem?_eq_getElem h3]; rfl
  have m2 : lc.getD i 0 ∈ lc := by
    rw [List.getD_eq_getElem?_getD, List.getElem?_eq_getElem h2]
    exact List.getElem_mem h2
  have m3 : spl.getD i [] ∈ spl := by
    rw [List.getD_eq_getElem?_getD, List.getElem?_eq_getElem h3]
    exact List.getElem_mem h3
  have n2 : numberToString (lc.getD i 0) = toString (lc.getD i 0) :=
    numberToString_safe _ (hlc _ m2)
  have n3 : (spl.getD i []).map numberToString = (spl.getD i []).map (fun n => toString n) :=
    List.map_congr_left (fun n hn => numberToString_safe n (hspl _ m3 n hn))
  unfold formatStanza
  simp only [e1, e2, e3, templateString, templateNumber, arrayJoin, stringRepeat, stanzaBlock]
  show Except.ok _ = Except.ok _
  congr 1
  rw [n3]
  show acc ++ ("Stanza " ++ toString (i + 1) ++ ":\n") ++ (st.getD i "" ++ "\n\n")
      ++ ("Lines: " ++ numberToString (lc.getD i 0) ++ "\n") ++ _ ++ _ = _
  rw [n2]
  apply String.ext
  simp only [String.data_append, List.append_assoc]
  rfl

theorem foldl_append_eq (l : List String) (a : String) :
    l.foldl (fun r s => r ++ s) a = a ++ l.foldl (fun r s => r ++ s) "" := by
  induction l generalizing a with
  | nil => exact (String.append_empty a).symm
  | cons x xs ih =>
    simp only [List.foldl_cons]
    rw [ih (a ++ x), ih ("" ++ x), String.empty_append, String.append_assoc]

theorem join_cons (x : String) (xs : List String) :
    String.join (x :: xs) = x ++ String.join xs := by
  unfold String.join
  rw [List.foldl_cons, String.empty_append, foldl_append_eq]

theorem foldlM_formatStanza (st : List String) (lc : List Int) (spl : List (List Int))
    (hlc : ∀ n ∈ lc, n.natAbs < 2 ^ 53) (hspl : ∀ row ∈ spl, ∀ n ∈ row, n.natAbs < 2 ^ 53)
    (h1 : st.length = lc.length) (h2 : lc.length = spl.length) (idx : List Nat)
    (hidx : ∀ i ∈ idx, i < st.length) (acc : String) :
    idx.foldlM (formatStanza st (some lc) (some spl)) acc
      = Except.ok (acc ++ String.join (idx.map (stanzaBlock st lc spl))) := by
  induction idx generalizing acc with
  | nil =>
    show Except.ok acc = Except.ok (acc ++ "")
    rw [String.append_empty]
  | cons i rest ih =>
    have hi : i < st.length := hidx i (List.mem_cons_self i rest)
    have hrest : ∀ k ∈ rest, k < st.length := fun k hk => hidx k (List.mem_cons_of_mem i hk)
    rw [List.foldlM_cons,
      formatStanza_ok st lc spl hlc hspl acc i hi (h1 ▸ hi) (h2 ▸ h1 ▸ hi)]
    show rest.foldlM (formatStanza st (some lc) (some spl)) (acc ++ stanzaBlock st lc spl i) = _
    rw [ih hrest, String.append_assoc, List.map_cons, join_cons]

theorem formatStanza_js (st : List String) (lc : List Int) (spl : List (List Int))
    (acc : String) (i : Nat) (h1 : i < st.length) (h2 : i < lc.length) (h3 : i < spl.length) :
    formatStanza st (some lc) (some spl) acc i
      = Except.ok (acc ++ stanzaBlockJs st lc spl i) := by
  have e1 : st[i]? = some (st.getD i "") := by
    rw [List.getD_eq_getElem?_getD, List.getElem?_eq_getElem h1]; rfl
  have e2 : lc[i]? = some (lc.getD i 0) := by
    rw [List.getD_eq_getElem?_getD, List.getElem?_eq_getElem h2]; rfl
  have e3 : spl[i]? = some (spl.getD i []) := by
    rw [List.getD_eq_getElem?_getD, List.getElem?_eq_getElem h3]; rfl
  unfold formatStanza
  simp only [e1, e2, e3, templateString, templateNumber, arrayJoin, stringRepeat, stanzaBlockJs]
  show Except.ok _ = Except.ok _
  congr 1
  apply String.ext
  simp only [String.data_append, List.append_assoc]
  rfl

theorem foldlM_formatStanza_js (st : List String) (lc : List Int) (spl : List (List Int))
    (h1 : st.length = lc.length) (h2 : lc.length = spl.length) (idx : List Nat)
    (hidx : ∀ i ∈ idx, i < st.length) (acc : String) :
    idx.foldlM (formatStanza st (some lc) (some spl)) acc
      = Except.ok (acc ++ String.join (idx.map (stanzaBlockJs st lc spl))) := by
  induction idx generalizing acc with
  | nil =>
    show Except.ok acc = Except.ok (acc ++ "")
    rw [String.append_empty]
  | cons i rest ih =>
    have hi : i < st.length := hidx i (List.mem_cons_self i rest)
    have hrest : ∀ k ∈ rest, k < st.length := fun k hk => hidx k (List.mem_cons_of_mem i hk)
    rw [List.foldlM_cons, formatStanza_js st lc spl acc i hi (h1 ▸ hi) (h2 ▸ h1 ▸ hi)]
    show rest.foldlM (formatStanza st (some lc) (some spl)) (acc ++ stanzaBlockJs st lc spl i)
      = _
    rw [ih hrest, String.append_assoc, List.map_cons, join_cons]

theorem foldlM_formatStanza_isOk (st : List String) (lc : List Int) (spl : List (List Int))
    (idx : List Nat) (hidx : ∀ i ∈ idx, i < spl.length) (acc : String) :
    ∃ out, idx.foldlM (formatStanza st (some lc) (some spl)) acc = Except.ok out := by
  induction idx generalizing acc with
  | nil => exact ⟨acc, rfl⟩
  | cons i rest ih =>
    obtain ⟨mid, hmid⟩ := formatStanza_isOk st lc spl acc i (hidx i (List.mem_cons_self i rest))
    obtain ⟨out, hout⟩ := ih (fun k hk => hidx k (List.mem_cons_of_mem i hk)) mid
    refine ⟨out, ?_⟩
    rw [List.foldlM_cons, hmid]
    exact hout

theorem formatStanza_grows (st : List String) (lc : Option (List Int))
    (spl : Option (List (List Int))) (acc out : String) (i : Nat)
    (h : formatStanza st lc spl acc i = Except.ok out) :
    ∃ rest : String, out = acc ++ ("Stanza " ++ rest) := by
  unfold formatStanza at h
  cases lc with
  | none => cases h
  | some lc =>
    cases spl with
    | none => cases h
    | some spl =>
      cases hrow : spl[i]? with
      | none => simp [hrow] at h; cases h
      | some row =>
        simp only [hrow] at h
        injection h with h
        refine ⟨toString (i + 1) ++ (":\n" ++ ((templateString st[i]? ++ "\n\n")
          ++ (("Lines: " ++ templateNumber lc[i]? ++ "\n")
          ++ (("Syllables per line: " ++ arrayJoin row ", " ++ "\n")
          ++ ("\n" ++ stringRepeat "─" 50 ++ "\n\n"))))), ?_⟩
        rw [← h]
        simp only [String.append_assoc]

theorem foldlM_formatStanza_grows (st : List String) (lc : Option (List Int))
    (spl : Option (List (List Int))) (idx : List Nat) (acc out : String)
    (h : idx.foldlM (formatStanza st lc spl) acc = Except.ok out) :
    ∃ rest : String, out = acc ++ rest := by
  induction idx generalizing acc with
  | nil =>
    injection h with h
    exact ⟨"", by rw [← h, String.append_empty]⟩
  | cons i rest ih =>
    rw [List.foldlM_cons] at h
    cases hstep : formatStanza st lc spl acc i with
    | error e => rw [hstep] at h; cases h
    | ok mid =>
      rw [hstep] at h
      obtain ⟨r1, hr1⟩ := formatStanza_grows st lc spl acc mid i hstep
      obtain ⟨r2, hr2⟩ := ih mid h
      exact ⟨("Stanza " ++ r1) ++ r2, by rw [hr2, hr1, String.append_assoc]⟩

theorem formatAnalysis_success (r : AnalysisResult) (st : List String) (lc : List Int)
    (spl : List (List Int)) (he : truthy r.error = false) (hst : r.stanza_texts = some st)
    (hlc : r.line_counts = some lc) (hspl : r.syllables_per_line = some spl)
    (h1 : st.length = lc.length) (h2 : lc.length = spl.length)
    (b1 : ∀ n ∈ lc, n.natAbs < 2 ^ 53) (b2 : ∀ row ∈ spl, ∀ n ∈ row, n.natAbs < 2 ^ 53) :
    formatAnalysis (some r) = Except.ok (renderStanzas st lc spl) := by
  unfold formatAnalysis
  simp only [he, hst, hlc, hspl]
  have h := foldlM_formatStanza st lc spl b1 b2 h1 h2 (List.range st.length)
    (fun i hi => List.mem_range.mp hi) ""
  rw [String.empty_append] at h
  exact h

theorem formatAnalysis_js (r : AnalysisResult) (st : List String) (lc : List Int)
    (spl : List (List Int)) (he : truthy r.error = false) (hst : r.stanza_texts = some st)
    (hlc : r.line_counts = some lc) (hspl : r.syllables_per_line = some spl)
    (h1 : st.length = lc.length) (h2 : lc.length = spl.length) :
    formatAnalysis (some r)
      = Except.ok (String.join ((List.range st.length).map (stanzaBlockJs st lc spl))) := by
  unfold formatAnalysis
  simp only [he, hst, hlc, hspl]
  have h := foldlM_formatStanza_js st lc spl h1 h2 (List.range st.length)
    (fun i hi => List.mem_range.mp hi) ""
  rw [String.empty_append] at h
  exact h

theorem formatAnalysis_isOk (r : AnalysisResult) (st : List String) (lc : List Int)
    (spl : List (List Int)) (he : truthy r.error = false) (hst : r.stanza_texts = some st)
    (hlc : r.line_counts = some lc) (hspl : r.syllables_per_line = some spl)
    (h1 : st.length = lc.length) (h2 : lc.length = spl.length) :
    ∃ out, formatAnalysis (some r) = Except.ok out := by
  unfold formatAnalysis
  simp only [he, hst, hlc, hspl]
  exact foldlM_formatStanza_isOk st lc spl (List.range st.length)
    (fun i hi => h2 ▸ h1 ▸ List.mem_range.mp hi) ""

theorem not_startsWith_error_empty : jsStartsWith "" "Error: " = false := by
  decide

theorem not_startsWith_error_stanza (r1 r2 : String) :
    jsStartsWith ("" ++ ("Stanza " ++ r1) ++ r2) "Error: " = false := by
  unfold jsStartsWith
  simp only [String.data_append]
  rfl

theorem startsWith_append (p x : String) : jsStartsWith (p ++ x) p = true := by
  unfold jsStartsWith
  rw [String.data_append, List.isPrefixOf_iff_prefix]
  exact List.prefix_append p.data x.data

theorem formatAnalysis_falsy_not_error (r : AnalysisResult) (out : String)
    (he : truthy r.error = false) (h : formatAnalysis (some r) = Except.ok out) :
    jsStartsWith out "Error: " = false := by
  unfold formatAnalysis at h
  simp only [he] at h
  cases hst : r.stanza_texts with
  | none =>
    rw [hst] at h
    injection h with h
    rw [← h]
    exact not_startsWith_error_empty
  | some st =>
    rw [hst] at h
    cases hn : st.length with
    | zero =>
      simp only [hn, List.range_zero] at h
      injection h with h
      rw [← h]
      exact not_startsWith_error_empty
    | succ n =>
      simp only [hn, List.range_succ_eq_map, List.foldlM_cons] at h
      cases hstep : formatStanza st r.line_counts r.syllables_per_line "" 0 with
      | error e => rw [hstep] at h; cases h
      | ok mid =>
        rw [hstep] at h
        obtain ⟨r1, hr1⟩ := formatStanza_grows _ _ _ _ _ _ hstep
        obtain ⟨r2, hr2⟩ := foldlM_formatStanza_grows _ _ _ _ _ _ h
        rw [hr2, hr1]
        exact not_startsWith_error_stanza r1 r2

/-! ## The renderer `formatAnalysis` -/

/-- C1: when the `error` field of `analysisResult` is a non-empty string `e`,
`formatAnalysis` returns exactly `"Error: "` followed by `e`, whatever the
fields `stanza_texts`, `line_counts` and `syllables_per_line` of the same
object hold; none of them is rendered or indexed. -/
theorem formatAnalysis_error_exclusive (r : AnalysisResult) (e : String)
    (he : r.error = some e) (hne : e ≠ "") :
    formatAnalysis (some r) = Except.ok ("Error: " ++ e) := by
  unfold formatAnalysis
  have ht : truthy r.error = true := by
    rw [he]
    simpa [truthy] using hne
  simp only [ht, if_true]
  rw [he]
  rfl

/-- C1, worked example: an object with the validation error next to success
fields whose indexing would throw renders as the error line alone. -/
theorem formatAnalysis_error_exclusive_witness :
    errorWithFields.error = some "poem text is required" ∧
    "poem text is required" ≠ "" ∧
    formatAnalysis (some errorWithFields) = Except.ok "Error: poem text is required" :=
  ⟨rfl, by decide,
    formatAnalysis_error_exclusive errorWithFields "poem text is required" rfl (by decide)⟩

/-- C4: on a success result (no truthy `error`) whose three arrays have the
same length, `formatAnalysis` returns a string: every pass of its loop
completes, and each of the lookups `stanza_texts[i]`, `line_counts[i]` and
`syllables_per_line[i]` made at an index `i` of the loop finds an element, so
`join` is always called on an array. -/
theorem formatAnalysis_total_of_lengths (r : AnalysisResult) (st : List String)
    (lc : List Int) (spl : List (List Int)) (he : truthy r.error = false)
    (hst : r.stanza_texts = some st) (hlc : r.line_counts = some lc)
    (hspl : r.syllables_per_line = some spl)
    (h1 : st.length = lc.length) (h2 : lc.length = spl.length) :
    (∃ out, formatAnalysis (some r) = Except.ok out) ∧
    (∀ i, i < st.length → (st[i]?).isSome = true ∧ (lc[i]?).isSome = true ∧
      (spl[i]?).isSome = true) ∧
    (∀ acc i, i < st.length →
      ∃ out, formatStanza st r.line_counts r.syllables_per_line acc i = Except.ok out) := by
  refine ⟨formatAnalysis_isOk r st lc spl he hst hlc hspl h1 h2, ?_, ?_⟩
  · intro i hi
    have hi2 : i < lc.length := h1 ▸ hi
    have hi3 : i < spl.length := h2 ▸ hi2
    rw [List.getElem?_eq_getElem hi, List.getElem?_eq_getElem hi2,
      List.getElem?_eq_getElem hi3]
    exact ⟨rfl, rfl, rfl⟩
  · intro acc i hi
    have hi2 : i < lc.length := h1 ▸ hi
    have hi3 : i < spl.length := h2 ▸ hi2
    rw [hlc, hspl]
    exact formatStanza_isOk st lc spl acc i hi3

/-- C4, worked example: the two-stanza result is rendered without failure. -/
theorem formatAnalysis_total_of_lengths_witness :
    ∃ out, formatAnalysis (some twoStanzas) = Except.ok out :=
  (formatAnalysis_total_of_lengths twoStanzas ["Line one\nLine two", "Line three"] [2, 1]
    [[2, 2], [2]] rfl rfl rfl rfl rfl rfl).1

/-- C8: on a success result whose three arrays have the same length, the
output of `formatAnalysis` is the concatenation, by increasing index `i` from
`0` to `len(stanza_texts) - 1`, of the blocks the specification spells out,
one block per stanza, in input order, none dropped or repeated: the block
`stanzaBlockJs i`, with the counts printed as JavaScript prints a number; and
when all counts are safe integers (absolute value below `2 ^ 53`) the block
`stanzaBlock i`, with the counts in decimal notation. -/
theorem formatAnalysis_eq_renderStanzas (r : AnalysisResult) (st : List String)
    (lc : List Int) (spl : List (List Int)) (he : truthy r.error = false)
    (hst : r.stanza_texts = some st) (hlc : r.line_counts = some lc)
    (hspl : r.syllables_per_line = some spl)
    (h1 : st.length = lc.length) (h2 : lc.length = spl.length) :
    formatAnalysis (some r)
      = Except.ok (String.join ((List.range st.length).map (stanzaBlockJs st lc spl))) ∧
    ((∀ n ∈ lc, n.natAbs < 2 ^ 53) → (∀ row ∈ spl, ∀ n ∈ row, n.natAbs < 2 ^ 53) →
      formatAnalysis (some r)
        = Except.ok (String.join ((List.range st.length).map (stanzaBlock st lc spl)))) :=
  ⟨formatAnalysis_js r st lc spl he hst hlc hspl h1 h2,
    fun b1 b2 => formatAnalysis_success r st lc spl he hst hlc hspl h1 h2 b1 b2⟩

/-- C8, worked example: the response for the two-line poem of the end-to-end
scenario is rendered as exactly one block. -/
theorem formatAnalysis_eq_renderStanzas_witness :
    formatAnalysis (some rosesResult)
      = Except.ok ("Stanza 1:\nRoses are red\nViolets are blue\n\nLines: 2\n"
          ++ "Syllables per line: 3, 3\n\n"
          ++ "──────────────────────────────────────────────────\n\n") :=
  (formatAnalysis_eq_renderStanzas rosesResult ["Roses are red\nViolets are blue"] [2] [[3, 3]]
    rfl rfl rfl rfl rfl rfl).2 (by decide) (by decide)

/-- C10: `formatAnalysis` returns a string starting with `"Error: "` exactly
when `analysisResult` is not `null` and its `error` is truthy.  An empty
`error` is not an error: the object is rendered as if `error` were absent, so
`{ error: "" }` gives the empty string; so do `null`, a result with neither a
truthy `error` nor `stanza_texts`, and a success result with no stanza. -/
theorem formatAnalysis_error_iff_truthy :
    (∀ a : Option AnalysisResult,
      (∃ out, formatAnalysis a = Except.ok out ∧ jsStartsWith out "Error: " = true) ↔
      (∃ r, a = some r ∧ truthy r.error = true)) ∧
    (∀ r : AnalysisResult, truthy r.error = false →
      formatAnalysis (some r)
        = formatAnalysis (some ⟨none, r.title, r.stanza_texts, r.line_counts,
            r.syllables_per_line⟩)) ∧
    formatAnalysis (some ⟨some "", none, none, none, none⟩) = Except.ok "" ∧
    formatAnalysis none = Except.ok "" ∧
    (∀ r : AnalysisResult, truthy r.error = false → r.stanza_texts = none →
      formatAnalysis (some r) = Except.ok "") ∧
    (∀ r : AnalysisResult, truthy r.error = false → r.stanza_texts = some [] →
      formatAnalysis (some r) = Except.ok "") := by
  refine ⟨?_, ?_, rfl, rfl, ?_, ?_⟩
  · intro a
    constructor
    · rintro ⟨out, hout, hpre⟩
      cases a with
      | none =>
        injection hout with hout
        rw [← hout, not_startsWith_error_empty] at hpre
        cases hpre
      | some r =>
        cases ht : truthy r.error with
        | true => exact ⟨r, rfl, ht⟩
        | false =>
          rw [formatAnalysis_falsy_not_error r out ht hout] at hpre
          cases hpre
    · rintro ⟨r, rfl, ht⟩
      refine ⟨"Error: " ++ templateString r.error, ?_, startsWith_append _ _⟩
      unfold formatAnalysis
      simp only [ht, if_true]
      rfl
  · intro r ht
    unfold formatAnalysis
    simp only [ht]
    rfl
  · intro r ht hst
    unfold formatAnalysis
    simp only [ht, hst]
    rfl
  · intro r ht hst
    unfold formatAnalysis
    simp only [ht, hst]
    rfl

/-- C10, worked example: an object whose `error` is the empty string and that
has no `stanza_texts` renders as the empty string, not as an error line. -/
theorem formatAnalysis_error_iff_truthy_witness :
    formatAnalysis (some ⟨some "", some "Test", none, some [1], none⟩) = Except.ok "" :=
  formatAnalysis_error_iff_truthy.2.2.2.2.1 ⟨some "", some "Test", none, some [1], none⟩ rfl rfl

/-! ## The submit handler `handleSubmit` -/

/-- C2, as the code has it: for a poem text that is empty, only white space or
only blank lines, `handleSubmit` delivers no value at all to
`onAnalysisReceived`, so no `"poem text is required"` error is produced by the
form and the panel goes on rendering the result it held before. -/
theorem handleSubmit_blank_delivers_nothing (env : Option String)
    (post : String → RequestBody → Except AxiosError Response) (s : FormState)
    (a : Option AnalysisResult) (h : s.writing.data.all isJsWhiteSpace = true) :
    received (traceOf (handleSubmit env post s)) = [] ∧
    formatAnalysis (analysisResultAfter a (traceOf (handleSubmit env post s)))
      = formatAnalysis a := by
  have ht : traceOf (handleSubmit env post s) = [Effect.preventDefault] :=
    congrArg Prod.snd (run_handleSubmit_blank env post s (jsTrim_eq_empty_of_all _ h))
  rw [ht]
  exact ⟨rfl, rfl⟩

/-- C2, worked example: a text of blank lines, submitted on a fresh page to a
server that would answer with the validation error, delivers nothing and the
panel stays empty. -/
theorem handleSubmit_blank_delivers_nothing_witness :
    " \n\n\t".data.all isJsWhiteSpace = true ∧
    received (traceOf (handleSubmit none rejectingServer ⟨" \n\n\t", "", false⟩)) = [] ∧
    formatAnalysis (analysisResultAfter none
      (traceOf (handleSubmit none rejectingServer ⟨" \n\n\t", "", false⟩)))
      = formatAnalysis none :=
  ⟨by decide,
    handleSubmit_blank_delivers_nothing none rejectingServer ⟨" \n\n\t", "", false⟩ none
      (by decide)⟩

/-- C2 fails as stated: for the empty text, a text of spaces and a text of
blank lines, the list of values `handleSubmit` delivers to
`onAnalysisReceived` is not the single value
`{ error: "poem text is required" }`, even on a network whose server would
answer with that error. -/
theorem handleSubmit_blank_no_required_error :
    received (traceOf (handleSubmit none rejectingServer ⟨"", "", false⟩))
      ≠ [some ⟨some "poem text is required", none, none, none, none⟩] ∧
    received (traceOf (handleSubmit none rejectingServer ⟨"   ", "", false⟩))
      ≠ [some ⟨some "poem text is required", none, none, none, none⟩] ∧
    received (traceOf (handleSubmit none rejectingServer ⟨"\n\n", "", false⟩))
      ≠ [some ⟨some "poem text is required", none, none, none, none⟩] := by
  decide

/-- C3, as the code has it: when a request is made (the poem text is not
blank), the title in its body is `"Untitled"` when the title field is empty,
and otherwise the title as typed, a title of white space included. -/
theorem handleSubmit_body_title (env : Option String)
    (post : String → RequestBody → Except AxiosError Response) (s : FormState)
    (h : jsTrim s.writing ≠ "") :
    (posts (traceOf (handleSubmit env post s))).map (fun p => p.2.title)
      = [if s.title = "" then "Untitled" else s.title] := by
  cases hp : post (orElse env "http://localhost:8000" ++ "/analyze")
      ⟨s.writing, orElse (some s.title) "Untitled"⟩ with
  | error error =>
    have ht := congrArg Prod.snd (run_handleSubmit_error env post s error h hp)
    show (posts (run (handleSubmit env post s)).2).map _ = _
    rw [ht]
    rfl
  | ok response =>
    have ht := congrArg Prod.snd (run_handleSubmit_ok env post s response h hp)
    show (posts (run (handleSubmit env post s)).2).map _ = _
    rw [ht]
    rfl

/-- C3, worked example: an empty title is sent as `"Untitled"`. -/
theorem handleSubmit_body_title_witness :
    jsTrim "Roses are red" ≠ "" ∧
    (posts (traceOf (handleSubmit none networkDown ⟨"Roses are red", "", false⟩))).map
      (fun p => p.2.title) = ["Untitled"] :=
  ⟨by decide, handleSubmit_body_title none networkDown ⟨"Roses are red", "", false⟩ (by decide)⟩

/-- C3 fails as stated: a title of one space is blank, yet the request body
carries it as typed, not as `"Untitled"`. -/
theorem handleSubmit_blank_title_sent :
    " ".data.all isJsWhiteSpace = true ∧
    (posts (traceOf (handleSubmit none networkDown ⟨"Roses are red", " ", false⟩))).map
      (fun p => p.2.title) = [" "] ∧
    (posts (traceOf (handleSubmit none networkDown ⟨"Roses are red", " ", false⟩))).map
      (fun p => p.2.title) ≠ ["Untitled"] := by
  decide

/-- C5: for a poem text whose trim is not empty, `handleSubmit` issues exactly
one POST, to the API base URL followed by `/analyze`, and the `poem_text` of
its body is the text as typed, untrimmed and unnormalised. -/
theorem handleSubmit_posts_verbatim (env : Option String)
    (post : String → RequestBody → Except AxiosError Response) (s : FormState)
    (h : jsTrim s.writing ≠ "") :
    (posts (traceOf (handleSubmit env post s))).map (fun p => (p.1, p.2.poem_text))
      = [(orElse env "http://localhost:8000" ++ "/analyze", s.writing)] := by
  cases hp : post (orElse env "http://localhost:8000" ++ "/analyze")
      ⟨s.writing, orElse (some s.title) "Untitled"⟩ with
  | error error =>
    have ht := congrArg Prod.snd (run_handleSubmit_error env post s error h hp)
    show (posts (run (handleSubmit env post s)).2).map _ = _
    rw [ht]
    rfl
  | ok response =>
    have ht := congrArg Prod.snd (run_handleSubmit_ok env post s response h hp)
    show (posts (run (handleSubmit env post s)).2).map _ = _
    rw [ht]
    rfl

/-- C5, worked example: a text with leading blanks, a carriage return and a
trailing newline reaches the configured server unchanged. -/
theorem handleSubmit_posts_verbatim_witness :
    jsTrim "  Roses are red\r\nViolets are blue \n" ≠ "" ∧
    (posts (traceOf (handleSubmit (some "https://api.example") rosesServer
      ⟨"  Roses are red\r\nViolets are blue \n", "Test", false⟩))).map
      (fun p => (p.1, p.2.poem_text))
      = [("https://api.example/analyze", "  Roses are red\r\nViolets are blue \n")] :=
  ⟨by decide,
    handleSubmit_posts_verbatim (some "https://api.example") rosesServer
      ⟨"  Roses are red\r\nViolets are blue \n", "Test", false⟩ (by decide)⟩

/-- C6: for a poem text whose trim is not empty, `handleSubmit` returns
without throwing and calls `onAnalysisReceived` exactly once: with the
response data when the POST succeeds, with `{ error: m }` when the POST fails
with message `m`. -/
theorem handleSubmit_delivers_once (env : Option String)
    (post : String → RequestBody → Except AxiosError Response) (s : FormState)
    (h : jsTrim s.writing ≠ "") :
    completion (handleSubmit env post s) = Except.ok () ∧
    received (traceOf (handleSubmit env post s))
      = [match post (analyzeUrl env) ⟨s.writing, orElse (some s.title) "Untitled"⟩ with
         | Except.ok response => response.data
         | Except.error error => some ⟨some error.message, none, none, none, none⟩] := by
  unfold analyzeUrl
  cases hp : post (orElse env "http://localhost:8000" ++ "/analyze")
      ⟨s.writing, orElse (some s.title) "Untitled"⟩ with
  | error error =>
    have hr := run_handleSubmit_error env post s error h hp
    unfold completion traceOf
    rw [hr]
    exact ⟨rfl, rfl⟩
  | ok response =>
    have hr := run_handleSubmit_ok env post s response h hp
    unfold completion traceOf
    rw [hr]
    exact ⟨rfl, rfl⟩

/-- C6, worked example: on a network that is down the handler returns and
delivers the one value `{ error: "Network Error" }`. -/
theorem handleSubmit_delivers_once_witness :
    jsTrim "Roses are red" ≠ "" ∧
    completion (handleSubmit none networkDown ⟨"Roses are red", "", false⟩) = Except.ok () ∧
    received (traceOf (handleSubmit none networkDown ⟨"Roses are red", "", false⟩))
      = [some ⟨some "Network Error", none, none, none, none⟩] :=
  ⟨by decide, handleSubmit_delivers_once none networkDown ⟨"Roses are red", "", false⟩ (by decide)⟩

/-- C7, as the code has it: when the request fails with message `m`, the value
`handleSubmit` delivers is exactly the object `{ error: m }` with no other
key, the very value of a validation-error response with that message, and the
panel renders it as it renders that response: as `"Error: "` followed by `m`
(as the empty string when `m` is empty).  Nothing marks the kind of error. -/
theorem handleSubmit_failure_as_validation (env : Option String)
    (post : String → RequestBody → Except AxiosError Response) (s : FormState)
    (error : AxiosError) (a : Option AnalysisResult) (h : jsTrim s.writing ≠ "")
    (hp : post (analyzeUrl env) ⟨s.writing, orElse (some s.title) "Untitled"⟩
      = Except.error error) :
    received (traceOf (handleSubmit env post s))
      = [some ⟨some error.message, none, none, none, none⟩] ∧
    analysisResultAfter a (traceOf (handleSubmit env post s))
      = some ⟨some error.message, none, none, none, none⟩ ∧
    formatAnalysis (analysisResultAfter a (traceOf (handleSubmit env post s)))
      = Except.ok (if error.message = "" then "" else "Error: " ++ error.message) ∧
    formatAnalysis (some ⟨some error.message, none, none, none, none⟩)
      = Except.ok (if error.message = "" then "" else "Error: " ++ error.message) := by
  have ht := congrArg Prod.snd (run_handleSubmit_error env post s error h hp)
  have hf : formatAnalysis (some ⟨some error.message, none, none, none, none⟩)
      = Except.ok (if error.message = "" then "" else "Error: " ++ error.message) := by
    unfold formatAnalysis
    by_cases hm : error.message = ""
    · simp [hm, truthy]
      rfl
    · simp [hm, truthy, templateString]
      rfl
  unfold traceOf
  rw [ht]
  exact ⟨rfl, rfl, hf, hf⟩

/-- C7, worked example: the failure of a request on a network that is down is
delivered as the object `{ error: "Network Error" }` and rendered as the line
`Error: Network Error`, replacing the result displayed before. -/
theorem handleSubmit_failure_as_validation_witness :
    jsTrim "Roses are red" ≠ "" ∧
    received (traceOf (handleSubmit none networkDown ⟨"Roses are red", "", false⟩))
      = [some ⟨some "Network Error", none, none, none, none⟩] ∧
    analysisResultAfter (some rosesResult)
      (traceOf (handleSubmit none networkDown ⟨"Roses are red", "", false⟩))
      = some ⟨some "Network Error", none, none, none, none⟩ ∧
    formatAnalysis (analysisResultAfter (some rosesResult)
      (traceOf (handleSubmit none networkDown ⟨"Roses are red", "", false⟩)))
      = Except.ok "Error: Network Error" ∧
    formatAnalysis (some ⟨some "Network Error", none, none, none, none⟩)
      = Except.ok "Error: Network Error" :=
  ⟨by decide,
    handleSubmit_failure_as_validation none networkDown ⟨"Roses are red", "", false⟩
      ⟨"Network Error"⟩ (some rosesResult) (by decide) rfl⟩

/-- C7 fails as stated: when the request fails with the message
`"poem text is required"`, the value delivered is the object
`{ error: "poem text is required" }`, equal to the validation-error response
of a server with that message, and both render as the same line. -/
theorem handleSubmit_failure_not_distinguishable :
    received (traceOf (handleSubmit none (fun _ _ => Except.error ⟨"poem text is required"⟩)
      ⟨"Roses are red", "", false⟩))
      = [some ⟨some "poem text is required", none, none, none, none⟩] ∧
    received (traceOf (handleSubmit none rejectingServer ⟨"Roses are red", "", false⟩))
      = [some ⟨some "poem text is required", none, none, none, none⟩] ∧
    formatAnalysis (analysisResultAfter none (traceOf (handleSubmit none
        (fun _ _ => Except.error ⟨"poem text is required"⟩) ⟨"Roses are red", "", false⟩)))
      = Except.ok "Error: poem text is required" ∧
    formatAnalysis (analysisResultAfter none
        (traceOf (handleSubmit none rejectingServer ⟨"Roses are red", "", false⟩)))
      = Except.ok "Error: poem text is required" :=
  ⟨by decide, by decide, rfl, rfl⟩

/-- C9: for a poem text whose trim is empty, `handleSubmit` does nothing but
`preventDefault`: it issues no POST, does not call `onAnalysisReceived`, and
leaves `isLoading` and the displayed analysis result as they were. -/
theorem handleSubmit_blank_frame (env : Option String)
    (post : String → RequestBody → Except AxiosError Response) (s : FormState)
    (a : Option AnalysisResult) (h : jsTrim s.writing = "") :
    traceOf (handleSubmit env post s) = [Effect.preventDefault] ∧
    posts (traceOf (handleSubmit env post s)) = [] ∧
    received (traceOf (handleSubmit env post s)) = [] ∧
    isLoadingAfter s.isLoading (traceOf (handleSubmit env post s)) = s.isLoading ∧
    analysisResultAfter a (traceOf (handleSubmit env post s)) = a := by
  have ht : traceOf (handleSubmit env post s) = [Effect.preventDefault] :=
    congrArg Prod.snd (run_handleSubmit_blank env post s h)
  rw [ht]
  exact ⟨rfl, rfl, rfl, rfl, rfl⟩

/-- C9, worked example: submitting white space while a result is displayed
changes nothing, whatever the server would have answered. -/
theorem handleSubmit_blank_frame_witness :
    jsTrim " \n " = "" ∧
    posts (traceOf (handleSubmit none rejectingServer ⟨" \n ", "Test", true⟩)) = [] ∧
    received (traceOf (handleSubmit none rejectingServer ⟨" \n ", "Test", true⟩)) = [] ∧
    isLoadingAfter true (traceOf (handleSubmit none rejectingServer ⟨" \n ", "Test", true⟩))
      = true ∧
    analysisResultAfter (some rosesResult)
      (traceOf (handleSubmit none rejectingServer ⟨" \n ", "Test", true⟩))
      = some rosesResult :=
  ⟨by decide,
    (handleSubmit_blank_frame none rejectingServer ⟨" \n ", "Test", true⟩
      (some rosesResult) (by decide)).2⟩

end OracleOfTheAbyss
